import Mathlib

/-!
Verification of the KVM replication engine of the krynn-tools repository
(`rsync_KVM_OS.py`, with the machine-type normalization shared with
`test_xml_normalize.py`).

The Python code is shallowly embedded: pure fragments become Lean
functions, and every interaction with the outside world (DNS lookup,
`stat` over SSH, `df` output, `findmnt`/`umount` results, the local
filesystem) is passed in explicitly as a function or record argument, so
each embedded function computes exactly what the corresponding Python
code computes for a given environment.
-/

namespace KrynnTools

/- ------------------------------------------------------------------ -/
/- Section 0: kernel-reducible embeddings of the Python string
   primitives the script leans on.                                     -/
/- ------------------------------------------------------------------ -/

/-- Boolean list-prefix test (shared by the path replace below and the
    regex scanner of Section 6). -/
def begins : List Char → List Char → Bool
  | [], _ => true
  | _ :: _, [] => false
  | p :: ps, c :: cs => p = c && begins ps cs

/-- Fuel-indexed loop behind `pyReplace`: left-to-right, non-overlapping
    replacement of `old` by `new`. -/
def replaceGo (old new : List Char) : Nat → List Char → List Char
  | _, [] => []
  | 0, s => s
  | fuel + 1, c :: rest =>
    if begins old (c :: rest) then
      new ++ replaceGo old new fuel (List.drop old.length (c :: rest))
    else c :: replaceGo old new fuel rest

/-- Embeds Python `s.replace(old, new)`: all non-overlapping occurrences
    are replaced left to right; an empty `old` splices `new` around
    every character. -/
def pyReplace (s old new : String) : String :=
  if old.data = [] then
    String.mk (new.data ++ (s.data.map (fun c => c :: new.data)).flatten)
  else String.mk (replaceGo old.data new.data s.data.length s.data)

/- ------------------------------------------------------------------ -/
/- Section 1: modification-time classification (PHASE 3 of main, and
   get_file_mtime / get_batch_remote_mtimes).                          -/
/- ------------------------------------------------------------------ -/

/-- Outcome of the per-file staleness decision in PHASE 3 of
    `KVMReplicator.main` (lines 1543-1581): the file is appended to the
    sync lists, or it is logged as identical and skipped, or it is
    silently skipped because the remote copy is newer. -/
inductive FileAction where
  | sync
  | skipIdentical
  | skipOlder
deriving DecidableEq, Repr

/-- Embeds the comparison used in both the batch branch and the
    per-file fallback branch of PHASE 3:
    `if local_mtime > remote_mtime: sync
     elif local_mtime == remote_mtime: log identical, skip
     else: skip`. -/
def classify_mtimes (local_mtime remote_mtime : Int) : FileAction :=
  if local_mtime > remote_mtime then .sync
  else if local_mtime = remote_mtime then .skipIdentical
  else .skipOlder

/-- Embeds the per-file decision of PHASE 3 of `KVMReplicator.main`.
    `batch_lookup` is the result of `remote_mtimes.get(fi.remote_path)`
    (the Python code supplies default `0`, modelled by `Option.getD 0`
    here); `indiv_stat` is the raw result of the per-file remote stat
    call, `none` when the file is missing or stat failed (the Python
    `get_file_mtime` then returns `0`). -/
def phase3_action (force_action skip_stat_check stat_available use_batch_stat : Bool)
    (local_mtime : Int) (batch_lookup : Option Int) (indiv_stat : Option Int) : FileAction :=
  if force_action || skip_stat_check || !stat_available then .sync
  else if use_batch_stat then classify_mtimes local_mtime (batch_lookup.getD 0)
  else classify_mtimes local_mtime (indiv_stat.getD 0)

/-- Embeds `KVMReplicator.get_file_mtime(file_path, remote=True)`:
    the stat round trip either yields an integer (`some m`) or fails
    (missing file, nonzero rc), in which case the method returns 0. -/
def get_file_mtime_remote (remote_mtime_of : String → Option Int) (p : String) : Int :=
  (remote_mtime_of p).getD 0

/-- First-occurrence deduplication, embedding the Python idiom
    `list(dict.fromkeys(file_paths))` in `get_batch_remote_mtimes`. -/
def dedupFirstGo (seen : List String) : List String → List String
  | [] => []
  | x :: xs => if x ∈ seen then dedupFirstGo seen xs else x :: dedupFirstGo (x :: seen) xs

/-- First-occurrence deduplication (`list(dict.fromkeys(...))`). -/
def dedupFirst (l : List String) : List String := dedupFirstGo [] l

/-- Embeds `KVMReplicator.get_batch_remote_mtimes`: the remote shell
    script stats every requested path and prints `mtime path` for
    existing files and `0 path` for missing ones; the method parses the
    output back into a path-to-mtime table.  The SSH/stdout transport is
    modelled at the value level: `remote_mtime_of` is the remote
    filesystem state (mtime of each existing regular file). -/
def get_batch_remote_mtimes (remote_mtime_of : String → Option Int)
    (file_paths : List String) : List (String × Int) :=
  (dedupFirst file_paths).map (fun p => (p, (remote_mtime_of p).getD 0))

/- ------------------------------------------------------------------ -/
/- Section 2: host validation and host configuration.                  -/
/- ------------------------------------------------------------------ -/

/-- Result of `KVMReplicator.validate_remote_host`: either
    `sys.exit(code)` or the validated hostname returned to the caller. -/
inductive HostValidation where
  | exited (code : Nat)
  | valid (host : String)
deriving DecidableEq, Repr

/-- Embeds `KVMReplicator.validate_remote_host` (lines 349-367).
    `resolves` models `socket.gethostbyname` succeeding, and
    `local_hostname` models `socket.gethostname()`.  The function does
    no remote work: it either exits 127 or returns the hostname. -/
def validate_remote_host (resolves : String → Bool) (local_hostname hostname : String) :
    HostValidation :=
  if hostname = "" then .exited 127
  else if resolves hostname = false then .exited 127
  else if hostname = local_hostname then .exited 127
  else .valid hostname

/-- Embeds the `HostConfig` dataclass with the `__post_init__` defaults
    (destination directory lists default to the standard KVM paths). -/
structure HostConfig where
  remote_host : String := ""
  threads : Nat := 1
  kvm_images_dst_dirs : List String := ["/shared/kvm0/images"]
  kvm_nvram_dst_dirs : List String := ["/shared/kvm0/nvram"]
  default_vm_list : String := ""
  rsync_path : String := ""
  stat_path : String := ""
  skip_define : Bool := false
  vxfs_snapshots : Bool := true
  skip_mount_check : Bool := false
  skip_stat_check : Bool := false
deriving DecidableEq, Repr

/-- The `DEFAULT_VM_LIST` constant of the script. -/
def DEFAULT_VM_LIST : List String :=
  ["dc00", "dc01", "dc02", "dc03", "fedora-x64", "fedora-csb-x64",
   "win10-x64", "win11-x64", "unifi", "gitlab",
   "bdc416x", "bdc417x", "bdc418x", "bdc419x", "bdc420x", "bdc421x", "bdc422x", "bdc423x",
   "sat6", "ca8", "idm00", "mailhost", "registry", "quay3", "vxvom", "www8",
   "kali-x64", "freenas-11", "ubuntu-x64", "dsm7", "ocp4s", "ocp4t",
   "rhel3-x86", "rhel4-x86", "rhel5-x86", "rhel5-x64", "rhel6-x86",
   "rhel6-x64", "rhel7-x64", "rhel8-x64", "rhel8-x64-eus", "rhel9-x64",
   "coreos-sno-0", "coreos-sno-1", "coreos-sno-2", "coreos-sno-3",
   "coreos-sno-4", "coreos-sno-5", "coreos-sno-6", "coreos-sno-7",
   "cirros"]

/-- The space-joined default VM list (`" ".join(DEFAULT_VM_LIST)`). -/
def default_vm_list_str : String := String.intercalate " " DEFAULT_VM_LIST

/-- The `KVM_STD_CONFIG` template merged into a `HostConfig` record. -/
def KVM_STD_CONFIG : HostConfig :=
  { kvm_images_dst_dirs := ["/shared/kvm0/images"]
    kvm_nvram_dst_dirs := ["/shared/kvm0/nvram"]
    rsync_path := ""
    stat_path := ""
    vxfs_snapshots := true
    skip_define := false
    skip_mount_check := false
    skip_stat_check := false
    threads := 1
    default_vm_list := default_vm_list_str }

/-- The `NAS_STD_CONFIG` template merged into a `HostConfig` record. -/
def NAS_STD_CONFIG : HostConfig :=
  { kvm_images_dst_dirs := ["/volume1/kvm0/images"]
    kvm_nvram_dst_dirs := ["/volume1/kvm0/nvram"]
    rsync_path := "/opt/bin/rsync"
    stat_path := "/opt/bin/stat"
    vxfs_snapshots := true
    skip_define := true
    skip_mount_check := true
    skip_stat_check := false
    threads := 1
    default_vm_list := default_vm_list_str }

/-- The static host configuration table of `_init_host_configs`, after
    the build step that fills in the default VM list for entries that do
    not override it. -/
def host_configs : List (String × HostConfig) :=
  [("daltigoth", { KVM_STD_CONFIG with remote_host := "daltigoth-228", threads := 2 }),
   ("palanthas", { KVM_STD_CONFIG with remote_host := "palanthas-228", threads := 2 }),
   ("ravenvale", { KVM_STD_CONFIG with remote_host := "ravenvale-228", threads := 2 }),
   ("solinari", { KVM_STD_CONFIG with remote_host := "solinari-228", threads := 2 }),
   ("solanthus", { KVM_STD_CONFIG with
      default_vm_list := "rhel3-x86 rhel9-x64 ca8 fedora-x64 fedora-csb-x64 win10-x64 win11-x64 dc00 dc01 bdc420x idm00 cirros mailhost",
      vxfs_snapshots := false }),
   ("lothlorien", { KVM_STD_CONFIG with
      default_vm_list := "fedora-csb-x64 cirros dc00 dc01 ca8 gitlab win10-x64 win11-x64",
      vxfs_snapshots := false }),
   ("thorbardin", { KVM_STD_CONFIG with vxfs_snapshots := false }),
   ("kalaman", { NAS_STD_CONFIG with threads := 2 }),
   ("ligett", NAS_STD_CONFIG),
   ("rh8x64", { KVM_STD_CONFIG with default_vm_list := "win11-x64 cirros" }),
   ("rh9x64", { KVM_STD_CONFIG with default_vm_list := "win11-x64 cirros" })]

/-- Table lookup keyed by the detected hostname
    (`detected_hostname in self.host_configs`). -/
def lookupHostConfig (detected : String) : Option HostConfig :=
  host_configs.lookup detected

/-- Embeds `HostConfig.get_effective_remote_host`: Python returns
    `self.remote_host if self.remote_host else detected_hostname`, where
    the empty string is falsy. -/
def get_effective_remote_host (cfg : HostConfig) (detected_hostname : String) : String :=
  if cfg.remote_host = "" then detected_hostname else cfg.remote_host

/-- Embeds `KVMReplicator.setup_host_config` (lines 436-447): pick the
    table entry for the detected hostname, or the generic default
    `HostConfig(default_vm_list=" ".join(DEFAULT_VM_LIST))`, then
    compute the effective remote host. -/
def setup_host_config (detected : String) : HostConfig × String :=
  let cfg :=
    match lookupHostConfig detected with
    | some c => c
    | none => { default_vm_list := default_vm_list_str }
  (cfg, get_effective_remote_host cfg detected)

/-- The hostname that `main` feeds into validation: the CLI override
    when given, otherwise the name derived from the script basename by
    `get_remote_host_from_script_name` (strip the `rsync_KVM_` part and
    the `_OS.py` / `.py` suffixes). -/
def lookup_name (cli_host : Option String) (script_name : String) : String :=
  match cli_host with
  | some h => h
  | none =>
    pyReplace (pyReplace (pyReplace script_name "rsync_KVM_" "") "_OS.py" "") ".py" ""

/-- Embeds the host-determination phase of `KVMReplicator.main`
    (lines 1437-1445 followed by `setup_host_config`): validate the
    lookup name, then resolve the configuration and the effective remote
    host.  Note `get_remote_host_from_script_name` exits 127 on an empty
    derived name before calling `validate_remote_host`; the embedded
    `validate_remote_host` performs the identical empty-name exit, so
    the composition is unchanged. -/
def main_host_phase (resolves : String → Bool) (local_hostname : String)
    (cli_host : Option String) (script_name : String) : Except Nat (HostConfig × String) :=
  match validate_remote_host resolves local_hostname (lookup_name cli_host script_name) with
  | .exited n => .error n
  | .valid h => .ok (setup_host_config h)

/-- Projection used to talk about the effective remote host a run
    proceeds with. -/
def effective_of (e : Except Nat (HostConfig × String)) : Option String :=
  match e with
  | .ok (_, h) => some h
  | .error _ => none

/- ------------------------------------------------------------------ -/
/- Section 3: inventory collection (should_skip_vm and
   collect_files_for_sync).                                            -/
/- ------------------------------------------------------------------ -/

/-- The `FileInfo` dataclass (lines 207-215). -/
structure FileInfo where
  vm_name : String
  local_path : String
  remote_path : String
  file_type : String
  dst_dir : String
deriving DecidableEq, Repr

/-- The environment `collect_files_for_sync` reads: the cached running-VM
    sets populated by `prefetch_running_vms`, existence of each VM's XML
    config, the disk and NVRAM paths `parse_vm_xml` extracts from it, and
    local file existence (`os.path.exists`). -/
structure CollectEnv where
  running_vms_local : List String
  running_vms_remote : List String
  xml_exists : String → Bool
  vm_disks : String → List String
  vm_nvrams : String → List String
  file_exists : String → Bool

/-- Embeds `KVMReplicator.should_skip_vm` (lines 911-941) on the cached
    path (in `main` the caches are always populated by
    `prefetch_running_vms` before any collection): with force off, skip
    exactly when the VM name is a member of either running set. -/
def should_skip_vm (force_action : Bool) (env : CollectEnv) (vm_name : String) : Bool :=
  if force_action then false
  else if env.running_vms_local.contains vm_name then true
  else if env.running_vms_remote.contains vm_name then true
  else false

/-- Accumulator loop behind `basename`: keep the characters after the
    last slash. -/
def basenameGo (cur : List Char) : List Char → List Char
  | [] => cur.reverse
  | c :: rest => if c = '/' then basenameGo [] rest else basenameGo (c :: cur) rest

/-- Embeds `os.path.basename` for the slash-separated paths the script
    builds remote paths from. -/
def basename (p : String) : String := String.mk (basenameGo [] p.data)

/-- Python truthiness of an optional string (`None` and `""` are falsy). -/
def truthy (o : Option String) : Bool :=
  match o with
  | none => false
  | some s => s ≠ ""

/-- Embeds the local-path redirection of `collect_files_for_sync`:
    `if snapshot_mount and kvm_fs_mnt:
       actual = file.replace(kvm_fs_mnt, snapshot_mount)`. -/
def resolve_local_path (snapshot_mount kvm_fs_mnt : Option String) (p : String) : String :=
  if truthy snapshot_mount && truthy kvm_fs_mnt then
    pyReplace p (kvm_fs_mnt.getD "") (snapshot_mount.getD "")
  else p

/-- The per-VM body of `collect_files_for_sync` (lines 858-904): for
    each disk reference, redirect the local read path into the snapshot
    when one is active, keep only locally existing files, and build the
    remote path from the destination directory and the basename of the
    original reference; then the same for NVRAM references. -/
def vm_file_infos (cfg : HostConfig) (env : CollectEnv) (src_dir_index : Nat)
    (snapshot_mount kvm_fs_mnt : Option String) (vm : String) : List FileInfo :=
  let img_dst := cfg.kvm_images_dst_dirs.getD src_dir_index ""
  let nvr_dst := cfg.kvm_nvram_dst_dirs.getD src_dir_index ""
  let disks := (env.vm_disks vm).filterMap (fun disk_file =>
    let actual_local_path := resolve_local_path snapshot_mount kvm_fs_mnt disk_file
    if env.file_exists actual_local_path then
      some { vm_name := vm
             local_path := actual_local_path
             remote_path := img_dst ++ "/" ++ basename disk_file
             file_type := "disk"
             dst_dir := img_dst }
    else none)
  let nvrams := (env.vm_nvrams vm).filterMap (fun nvram_file =>
    let actual_local_path := resolve_local_path snapshot_mount kvm_fs_mnt nvram_file
    if env.file_exists actual_local_path then
      some { vm_name := vm
             local_path := actual_local_path
             remote_path := nvr_dst ++ "/" ++ basename nvram_file
             file_type := "nvram"
             dst_dir := nvr_dst }
    else none)
  disks ++ nvrams

/-- Embeds `KVMReplicator.collect_files_for_sync` (lines 816-909):
    running VMs are skipped, VMs without a local XML are skipped, each
    remaining VM contributes its existing disk/NVRAM files, and appears
    in the returned VM list only when at least one of its files was
    collected. -/
def collect_files_for_sync (force_action : Bool) (env : CollectEnv) (cfg : HostConfig)
    (vm_list : List String) (src_dir_index : Nat)
    (snapshot_mount kvm_fs_mnt : Option String) : List String × List FileInfo :=
  match vm_list with
  | [] => ([], [])
  | vm :: rest =>
    let r := collect_files_for_sync force_action env cfg rest src_dir_index snapshot_mount kvm_fs_mnt
    if should_skip_vm force_action env vm then r
    else if env.xml_exists vm = false then r
    else
      let fis := vm_file_infos cfg env src_dir_index snapshot_mount kvm_fs_mnt vm
      (if fis.isEmpty then r.1 else vm :: r.1, fis ++ r.2)

/- ------------------------------------------------------------------ -/
/- Section 4: remote mount-point verification.                         -/
/- ------------------------------------------------------------------ -/

/-- Outcome of `check_remote_mount_points`: normal return, a
    `sys.exit(code)`, or an uncaught exception (the `IndexError` raised
    by `lines[1].split()[-1]` when the second df line has no fields). -/
inductive CheckOutcome where
  | ok
  | exited (code : Nat)
  | crashed
deriving DecidableEq, Repr

/-- The whitespace set of Python `str.strip()` and `str.split()`
    (space, tab, newline, carriage return, vertical tab, form feed). -/
def isPyWS (c : Char) : Bool :=
  c = ' ' || c = '\t' || c = '\n' || c = '\r' || c = Char.ofNat 11 || c = Char.ofNat 12

/-- Drop leading Python whitespace. -/
def dropWS : List Char → List Char
  | [] => []
  | c :: rest => if isPyWS c then dropWS rest else c :: rest

/-- Embeds Python `s.strip()` on the character list. -/
def pyStripL (l : List Char) : List Char := (dropWS ((dropWS l).reverse)).reverse

/-- Embeds Python `s.split(chr(10))`: split on newlines, keeping empty
    pieces. -/
def splitLines : List Char → List (List Char)
  | [] => [[]]
  | c :: rest =>
    if c = '\n' then [] :: splitLines rest
    else
      match splitLines rest with
      | [] => [[c]]
      | h :: t => (c :: h) :: t

/-- Accumulator loop behind `pyFields`. -/
def fieldsGo (cur : List Char) : List Char → List (List Char)
  | [] => if cur = [] then [] else [cur.reverse]
  | c :: rest =>
    if isPyWS c then
      if cur = [] then fieldsGo [] rest else cur.reverse :: fieldsGo [] rest
    else fieldsGo (c :: cur) rest

/-- Embeds Python `s.split()` (split on whitespace runs, no empties). -/
def pyFields (l : List Char) : List (List Char) := fieldsGo [] l

/-- The per-directory body of `check_remote_mount_points`
    (lines 574-587): a failed `df` round trip exits 127; otherwise the
    mount point is the last field of the second output line, and an
    empty or root mount point exits 127.  `df_out` is `none` when the
    SSH command raised `CalledProcessError`; when the second output line
    has no fields, `lines[1].split()[-1]` raises `IndexError`, modelled
    as `crashed`. -/
def check_one_dir (df_out : Option String) : CheckOutcome :=
  match df_out with
  | none => .exited 127
  | some out =>
    let lines := splitLines (pyStripL out.data)
    if lines.length > 1 then
      match (pyFields (lines.getD 1 [])).getLast? with
      | none => .crashed
      | some mount_point =>
        if mount_point = [] ∨ mount_point = "/".data then .exited 127 else .ok
    else .ok

/-- The loop of `check_remote_mount_points` over the configured
    disk-image destination directories, stopping at the first exit or
    crash. -/
def check_mount_dirs (skip_mount_check : Bool) (dirs : List String)
    (df : String → Option String) : CheckOutcome :=
  match dirs with
  | [] => .ok
  | d :: rest =>
    if skip_mount_check then check_mount_dirs skip_mount_check rest df
    else
      match check_one_dir (df d) with
      | .ok => check_mount_dirs skip_mount_check rest df
      | o => o

/-- Embeds `KVMReplicator.check_remote_mount_points` (lines 564-587).
    Note the Python loop iterates `self.host_config.kvm_images_dst_dirs`
    only; the NVRAM destination directories are never queried. -/
def check_remote_mount_points (cfg : HostConfig) (df : String → Option String) : CheckOutcome :=
  check_mount_dirs cfg.skip_mount_check cfg.kvm_images_dst_dirs df

/- ------------------------------------------------------------------ -/
/- Section 5: snapshot teardown.                                       -/
/- ------------------------------------------------------------------ -/

/-- External commands `destroy_vxfs_snapshot` can attempt, in order. -/
inductive SnapAction where
  | umountCmd
  | vxsnapDis
  | vxeditRm
  | vxsnapUnprepare
deriving DecidableEq, Repr

/-- Environment of one `destroy_vxfs_snapshot` call: the `findmnt`
    probe of the snapshot mount point, the `umount` result, and whether
    each teardown command succeeds (a failing teardown command raises
    `CalledProcessError`, which the method catches and logs). -/
structure DestroySnapEnv where
  findmnt_rc_ok : Bool
  findmnt_stdout : String
  umount_rc_ok : Bool
  dis_ok : Bool
  rm_ok : Bool
deriving Repr

/-- Result of `destroy_vxfs_snapshot`: the commands attempted, whether
    the busy-unmount warning was logged, and whether an exception
    escaped the method (it never does: every failure is caught). -/
structure DestroyResult where
  actions : List SnapAction
  warned_umount_failed : Bool
  raised : Bool
deriving DecidableEq, Repr

/-- The mounted-as-vxfs test at the top of `destroy_vxfs_snapshot`:
    `findmnt` returned 0, its stripped output is nonempty, has a second
    line, and that line strips to `vxfs`. -/
def snapshot_mounted_vxfs (rc_ok : Bool) (stdout : String) : Bool :=
  if rc_ok = false then false
  else
    let stripped := pyStripL stdout.data
    if stripped = [] then false
    else
      let lines := splitLines stripped
      if lines.length > 1 then pyStripL (lines.getD 1 []) = "vxfs".data else false

/-- Embeds `KVMReplicator.destroy_vxfs_snapshot` (lines 1066-1093):
    when the snapshot mount is present, attempt `umount`; only on
    unmount success run the teardown triple (`vxsnap dis`, `vxedit rm`,
    `vxsnap unprepare`, stopping at the first failure, whose exception
    is caught); on unmount failure log the busy warning and tear nothing
    down.  The method never lets an exception escape. -/
def destroy_vxfs_snapshot (debug : Bool) (env : DestroySnapEnv) : DestroyResult :=
  if debug then { actions := [], warned_umount_failed := false, raised := false }
  else if snapshot_mounted_vxfs env.findmnt_rc_ok env.findmnt_stdout then
    if env.umount_rc_ok then
      { actions :=
          [.umountCmd, .vxsnapDis] ++
            (if env.dis_ok then
              [.vxeditRm] ++ (if env.rm_ok then [.vxsnapUnprepare] else [])
             else [])
        warned_umount_failed := false
        raised := false }
    else { actions := [.umountCmd], warned_umount_failed := true, raised := false }
  else { actions := [], warned_umount_failed := false, raised := false }

/-- Outcome of the body of one source-directory iteration of `main`
    (the `try` block around collection, transfer and config sync). -/
inductive BodyOutcome where
  | succeeded
  | failedPartially
  | raisedE
deriving DecidableEq, Repr

/-- Embeds the `finally` block of the main loop (lines 1673-1679)
    together with the body result: whatever the body did, cleanup runs
    and calls `destroy_vxfs_snapshot` exactly when a snapshot handle is
    active. -/
def iteration_with_cleanup (body : BodyOutcome)
    (active_snapshot_info : Option (String × String × String × String))
    (debug : Bool) (env : DestroySnapEnv) : BodyOutcome × List SnapAction :=
  (body,
    match active_snapshot_info with
    | none => []
    | some _ => (destroy_vxfs_snapshot debug env).actions)

/- ------------------------------------------------------------------ -/
/- Section 6: machine-type normalization (normalize_xml_content of
   test_xml_normalize.py, identical to the sed patterns the replicator
   ships to the remote host in sync_vm_configs).                       -/
/- ------------------------------------------------------------------ -/

/-- Membership in the regex character class `[a-zA-Z0-9._-]`. -/
def isWordC (c : Char) : Bool :=
  (Char.ofNat 97 ≤ c && c ≤ Char.ofNat 122) ||
  (Char.ofNat 65 ≤ c && c ≤ Char.ofNat 90) ||
  (Char.ofNat 48 ≤ c && c ≤ Char.ofNat 57) ||
  c = Char.ofNat 46 || c = Char.ofNat 95 || c = Char.ofNat 45

/-- Greedy consumption of the `[a-zA-Z0-9._-]*` tail of a match. -/
def dropRun : List Char → List Char
  | [] => []
  | c :: rest => if isWordC c then dropRun rest else c :: rest

/-- One left-to-right, non-overlapping `re.sub` pass for a pattern of
    the shape `LITERAL[a-zA-Z0-9._-]*`: at each position, if the literal
    matches, emit the replacement, skip the matched literal and the
    maximal class run, and resume after it; otherwise keep the character.
    Fuel-indexed so the definition is structural and kernel-reducible;
    `substPat` below supplies sufficient fuel. -/
def substF (pat repl : List Char) : Nat → List Char → List Char
  | _, [] => []
  | 0, s => s
  | fuel + 1, c :: rest =>
    if begins pat (c :: rest) then
      repl ++ substF pat repl fuel (dropRun (List.drop pat.length (c :: rest)))
    else
      c :: substF pat repl fuel rest

/-- The `re.sub` pass with enough fuel for the whole input. -/
def substPat (pat repl s : List Char) : List Char :=
  substF pat repl s.length s

/-- Whether the pattern literal matches at some position of the list
    (so, whether another `re.sub` pass could still rewrite something). -/
def hasPat (pat : List Char) : List Char → Bool
  | [] => false
  | c :: rest => begins pat (c :: rest) || hasPat pat rest

/-- The literal part of the first sed/re pattern, `pc-i440fx-`. -/
def patI440 : List Char := "pc-i440fx-".data

/-- Replacement of the first pattern. -/
def repPc : List Char := "pc".data

/-- The literal part of the second sed/re pattern, `pc-q35-`. -/
def patQ35 : List Char := "pc-q35-".data

/-- Replacement of the second pattern. -/
def repQ35 : List Char := "q35".data

/-- Embeds `normalize_xml_content` of `test_xml_normalize.py` (lines
    15-22), which documents itself as the same transformation as the sed
    invocation in `KVMReplicator.sync_vm_configs`:
    `re.sub(r'pc-i440fx-[a-zA-Z0-9._-]*', 'pc', x)` followed by
    `re.sub(r'pc-q35-[a-zA-Z0-9._-]*', 'q35', x)` on the result. -/
def normalize_xml_content (s : String) : String :=
  String.mk (substPat patQ35 repQ35 (substPat patI440 repPc s.data))

/-- The RHEL-flavoured test document of `test_xml_snippet_comparison`. -/
def rhel_xml : String :=
  "<domain type='kvm'>\n  <name>test-vm</name>\n  <memory unit='KiB'>4194304</memory>\n  <os>\n    <type arch='x86_64' machine='pc-q35-rhel9.2.0'>hvm</type>\n    <boot dev='hd'/>\n  </os>\n  <devices>\n    <emulator>/usr/libexec/qemu-kvm</emulator>\n  </devices>\n</domain>"

/-- The Fedora-flavoured test document of `test_xml_snippet_comparison`:
    identical except for the machine-type string. -/
def fedora_xml : String :=
  "<domain type='kvm'>\n  <name>test-vm</name>\n  <memory unit='KiB'>4194304</memory>\n  <os>\n    <type arch='x86_64' machine='pc-q35-8.2'>hvm</type>\n    <boot dev='hd'/>\n  </os>\n  <devices>\n    <emulator>/usr/libexec/qemu-kvm</emulator>\n  </devices>\n</domain>"

/-- The original document of `test_real_change_detected`. -/
def original_xml : String :=
  "<domain type='kvm'>\n  <name>test-vm</name>\n  <memory unit='KiB'>4194304</memory>\n  <os>\n    <type arch='x86_64' machine='pc-q35-rhel9.2.0'>hvm</type>\n  </os>\n</domain>"

/-- The changed document of `test_real_change_detected`: the memory size
    differs (a genuine content change) and so does the machine type. -/
def changed_xml : String :=
  "<domain type='kvm'>\n  <name>test-vm</name>\n  <memory unit='KiB'>8388608</memory>\n  <os>\n    <type arch='x86_64' machine='pc-q35-8.2'>hvm</type>\n  </os>\n</domain>"

/- ------------------------------------------------------------------ -/
/- Section 7: helper lemmas about the substitution scanner.            -/
/- ------------------------------------------------------------------ -/

theorem begins_length {x y : List Char} (h : begins x y = true) : x.length ≤ y.length := by
  induction x generalizing y with
  | nil => simp
  | cons p ps ih =>
    cases y with
    | nil => simp [begins] at h
    | cons c cs =>
      simp only [begins, Bool.and_eq_true] at h
      simpa using Nat.succ_le_succ (ih h.2)

theorem begins_refl (x : List Char) : begins x x = true := by
  induction x with
  | nil => rfl
  | cons p ps ih => simp [begins, ih]

theorem begins_eq_of_le {x y : List Char} (h : begins x y = true)
    (hl : y.length ≤ x.length) : x = y := by
  induction x generalizing y with
  | nil => cases y with
    | nil => rfl
    | cons c cs => simp at hl
  | cons p ps ih =>
    cases y with
    | nil => simp [begins] at h
    | cons c cs =>
      simp only [begins, Bool.and_eq_true, decide_eq_true_eq] at h
      simp only [List.length_cons, Nat.succ_le_succ_iff] at hl
      rw [h.1, ih h.2 hl]

theorem begins_append_split (a : List Char) :
    ∀ x w : List Char, begins x (a ++ w) = true →
      begins x a = true ∨
        (begins a x = true ∧ begins (x.drop a.length) w = true) := by
  induction a with
  | nil =>
    intro x w h
    exact Or.inr ⟨rfl, by simpa using h⟩
  | cons b a2 ih =>
    intro x w h
    cases x with
    | nil => exact Or.inl rfl
    | cons y x2 =>
      simp only [List.cons_append, begins, Bool.and_eq_true, decide_eq_true_eq] at h
      rcases ih x2 w h.2 with h1 | ⟨h2, h3⟩
      · exact Or.inl (by simp [begins, h.1, h1])
      · refine Or.inr ⟨by simp [begins, h.1, h2], ?_⟩
        simpa using h3

theorem drop_lt_cons (l : List Char) :
    ∀ k, (hk : k < l.length) → l.drop k = l.get ⟨k, hk⟩ :: l.drop (k + 1) := by
  induction l with
  | nil => intro k hk; simp at hk
  | cons c rest ih =>
    intro k hk
    cases k with
    | zero => simp
    | succ k2 =>
      have hk2 : k2 < rest.length := by simp at hk; omega
      exact ih k2 hk2

theorem all_get {l : List Char} (h : l.all isWordC = true) (k : Fin l.length) :
    isWordC (l.get k) = true :=
  List.all_eq_true.mp h _ (List.get_mem l k.1 k.2)

theorem begins_drop_nonword {π : List Char} (hcls : π.all isWordC = true)
    {w : List Char} (hw : w = [] ∨ ∃ c t, w = c :: t ∧ isWordC c = false)
    (j : Nat) (hj : j < π.length) : begins (π.drop j) w = false := by
  rw [drop_lt_cons π j hj]
  rcases hw with rfl | ⟨c, t, rfl, hc⟩
  · rfl
  · simp only [begins, Bool.and_eq_false_iff]
    by_cases he : π.get ⟨j, hj⟩ = c
    · rw [← he] at hc
      rw [all_get hcls ⟨j, hj⟩] at hc
      exact absurd hc (by simp)
    · exact Or.inl (by simpa using he)

theorem dropRun_length_le : ∀ s : List Char, (dropRun s).length ≤ s.length := by
  intro s
  induction s with
  | nil => simp [dropRun]
  | cons c rest ih =>
    by_cases hc : isWordC c = true
    · simp only [dropRun, hc, if_true]
      exact Nat.le_succ_of_le ih
    · simp [dropRun, hc]

theorem dropRun_head : ∀ s : List Char,
    dropRun s = [] ∨ ∃ c t, dropRun s = c :: t ∧ isWordC c = false := by
  intro s
  induction s with
  | nil => exact Or.inl rfl
  | cons c rest ih =>
    by_cases hc : isWordC c = true
    · simpa [dropRun, hc] using ih
    · exact Or.inr ⟨c, rest, by simp [dropRun, hc], by simpa using hc⟩

theorem hasPat_tail {π : List Char} {c : Char} {rest : List Char}
    (h : hasPat π (c :: rest) = false) : hasPat π rest = false := by
  simp only [hasPat, Bool.or_eq_false_iff] at h
  exact h.2

theorem hasPat_drop (π : List Char) : ∀ (j : Nat) (s : List Char),
    hasPat π s = false → hasPat π (s.drop j) = false := by
  intro j
  induction j with
  | zero => intro s h; simpa using h
  | succ j2 ih =>
    intro s h
    cases s with
    | nil => simpa using h
    | cons c rest => simpa using ih rest (hasPat_tail h)

theorem hasPat_dropRun (π : List Char) : ∀ s : List Char,
    hasPat π s = false → hasPat π (dropRun s) = false := by
  intro s
  induction s with
  | nil => intro h; simpa [dropRun] using h
  | cons c rest ih =>
    intro h
    by_cases hc : isWordC c = true
    · simp only [dropRun, hc, if_true]
      exact ih (hasPat_tail h)
    · simpa [dropRun, hc] using h

theorem substF_fuel {pat repl : List Char} (hne : pat.length ≥ 1) :
    ∀ n : Nat, ∀ m : Nat, ∀ u : List Char, u.length ≤ n → u.length ≤ m →
      substF pat repl n u = substF pat repl m u := by
  intro n
  induction n with
  | zero =>
    intro m u hn _
    have : u = [] := List.length_eq_zero.mp (Nat.le_zero.mp hn)
    subst this
    cases m <;> rfl
  | succ n2 ih =>
    intro m u hn hm
    cases u with
    | nil => cases m <;> rfl
    | cons c rest =>
      cases m with
      | zero => simp at hm
      | succ m2 =>
        simp only [substF]
        by_cases hb : begins pat (c :: rest) = true
        · rw [hb]
          simp only [if_true]
          have hlen : (dropRun (List.drop pat.length (c :: rest))).length ≤ rest.length := by
            have h1 := dropRun_length_le (List.drop pat.length (c :: rest))
            have h2 := List.length_drop pat.length (c :: rest)
            simp only [List.length_cons] at h2
            omega
          congr 1
          exact ih m2 _ (by simp at hn; omega) (by simp at hm; omega)
        · rw [if_neg (by simp [hb]), if_neg (by simp [hb])]
          rw [ih m2 rest (by simp at hn; omega) (by simp at hm; omega)]

theorem substPat_nil (pat repl : List Char) : substPat pat repl [] = [] := rfl

theorem substPat_cons_nomatch {pat : List Char} (repl : List Char) {c : Char} {rest : List Char}
    (h : begins pat (c :: rest) = false) :
    substPat pat repl (c :: rest) = c :: substPat pat repl rest := by
  show substF pat repl (rest.length + 1) (c :: rest) = _
  simp only [substF, h]
  rfl

theorem substPat_cons_match {pat repl : List Char} (hne : pat.length ≥ 1)
    {c : Char} {rest : List Char} (h : begins pat (c :: rest) = true) :
    substPat pat repl (c :: rest) =
      repl ++ substPat pat repl (dropRun (List.drop pat.length (c :: rest))) := by
  show substF pat repl (rest.length + 1) (c :: rest) = _
  simp only [substF, h, if_true]
  congr 1
  apply substF_fuel hne
  · have h1 := dropRun_length_le (List.drop pat.length (c :: rest))
    have h2 : (List.drop pat.length (c :: rest)).length = (c :: rest).length - pat.length := by
      simp
    simp at h1 h2 ⊢
    omega
  · exact Nat.le_refl _

theorem substPat_head_nonword {σ : List Char} (rr : List Char)
    (hσ : ∃ s0 σt, σ = s0 :: σt ∧ isWordC s0 = true)
    {c : Char} (u : List Char) (hc : isWordC c = false) :
    substPat σ rr (c :: u) = c :: substPat σ rr u := by
  obtain ⟨s0, σt, rfl, hs0⟩ := hσ
  apply substPat_cons_nomatch
  simp only [begins, Bool.and_eq_false_iff]
  refine Or.inl ?_
  simp only [decide_eq_false_iff_not]
  intro he
  rw [he, hc] at hs0
  exact absurd hs0 (by simp)

theorem begins_drop_pullback (σ rr π : List Char)
    (hπcls : π.all isWordC = true)
    (hσ : ∃ s0 σt, σ = s0 :: σt ∧ isWordC s0 = true)
    (hlen : rr.length < π.length)
    (hsuf : ∀ k, k < π.length → 1 ≤ k → begins (π.drop k) rr = false) :
    ∀ n : Nat, ∀ u : List Char, u.length ≤ n → ∀ k, k < π.length →
      begins (π.drop k) (substPat σ rr u) = true → begins (π.drop k) u = true := by
  intro n
  induction n with
  | zero =>
    intro u hn k hk hb
    have hu : u = [] := List.length_eq_zero.mp (Nat.le_zero.mp hn)
    subst hu
    rw [substPat_nil, drop_lt_cons π k hk] at hb
    exact absurd hb (by simp [begins])
  | succ n2 ih =>
    intro u hn k hk hb
    cases u with
    | nil =>
      rw [substPat_nil, drop_lt_cons π k hk] at hb
      exact absurd hb (by simp [begins])
    | cons c rest =>
      by_cases hm : begins σ (c :: rest) = true
      · exfalso
        have hσlen : σ.length ≥ 1 := by
          obtain ⟨s0, σt, rfl, _⟩ := hσ
          simp
        rw [substPat_cons_match hσlen hm] at hb
        set w := substPat σ rr (dropRun (List.drop σ.length (c :: rest))) with hw
        have hwshape : w = [] ∨ ∃ c0 t0, w = c0 :: t0 ∧ isWordC c0 = false := by
          rcases dropRun_head (List.drop σ.length (c :: rest)) with h0 | ⟨c0, t0, h0, hc0⟩
          · left
            rw [hw, h0, substPat_nil]
          · right
            refine ⟨c0, substPat σ rr t0, ?_, hc0⟩
            rw [hw, h0, substPat_head_nonword rr hσ t0 hc0]
        rcases begins_append_split rr _ _ hb with h1 | ⟨h2, h3⟩
        · have hlk : π.length - k ≤ rr.length := by
            have hbl := begins_length h1
            simp [List.length_drop] at hbl
            omega
          have hk1 : 1 ≤ k := by omega
          rw [hsuf k hk hk1] at h1
          exact absurd h1 (by simp)
        · rw [List.drop_drop] at h3
          by_cases hk2 : k + rr.length < π.length
          · rw [begins_drop_nonword hπcls hwshape _ hk2] at h3
            exact absurd h3 (by simp)
          · have hEq : rr = π.drop k := by
              apply begins_eq_of_le h2
              simp [List.length_drop]
              omega
            have hk1 : 1 ≤ k := by omega
            have hcontra := hsuf k hk hk1
            rw [← hEq, begins_refl rr] at hcontra
            exact absurd hcontra (by simp)
      · rw [substPat_cons_nomatch rr (by simpa using hm)] at hb
        rw [drop_lt_cons π k hk] at hb
        simp only [begins, Bool.and_eq_true, decide_eq_true_eq] at hb
        obtain ⟨hbc, hbrest⟩ := hb
        by_cases hk1 : k + 1 < π.length
        · have hrec := ih rest (by simp at hn; omega) (k + 1) hk1 hbrest
          rw [drop_lt_cons π k hk]
          simp only [begins, Bool.and_eq_true, decide_eq_true_eq]
          exact ⟨hbc, hrec⟩
        · have hdrop : π.drop (k + 1) = [] := by
            apply List.drop_eq_nil_of_le
            omega
          rw [drop_lt_cons π k hk, hdrop]
          simp only [begins, Bool.and_eq_true, decide_eq_true_eq]
          exact ⟨hbc, trivial⟩

theorem begins_append_word_false (π : List Char) (hπcls : π.all isWordC = true)
    (a w : List Char) (hlen : a.length < π.length)
    (hw : w = [] ∨ ∃ c t, w = c :: t ∧ isWordC c = false) :
    begins π (a ++ w) = false := by
  cases hbb : begins π (a ++ w) with
  | false => rfl
  | true =>
    exfalso
    rcases begins_append_split a π w hbb with h1 | ⟨h2, h3⟩
    · have hb2 := begins_length h1
      omega
    · rw [begins_drop_nonword hπcls hw _ hlen] at h3
      exact absurd h3 (by simp)

theorem hasPat_append_false (π : List Char) (hπcls : π.all isWordC = true) :
    ∀ rr : List Char, rr.length < π.length →
      ∀ w : List Char, (w = [] ∨ ∃ c t, w = c :: t ∧ isWordC c = false) →
        hasPat π w = false → hasPat π (rr ++ w) = false := by
  intro rr
  induction rr with
  | nil =>
    intro _ w _ hw
    simpa using hw
  | cons x r2 ih =>
    intro hlen w hwshape hw
    simp only [List.cons_append, hasPat, Bool.or_eq_false_iff]
    constructor
    · have := begins_append_word_false π hπcls (x :: r2) w hlen hwshape
      simpa using this
    · have hr2 : r2.length < π.length := by simp at hlen; omega
      simpa using ih hr2 w hwshape hw

theorem hasPat_substPat_self (π rr : List Char)
    (hπcls : π.all isWordC = true)
    (hπne : 1 ≤ π.length)
    (hlen : rr.length < π.length)
    (hsuf : ∀ k, k < π.length → 1 ≤ k → begins (π.drop k) rr = false) :
    ∀ n : Nat, ∀ u : List Char, u.length ≤ n → hasPat π (substPat π rr u) = false := by
  have hπhead : ∃ p0 pt, π = p0 :: pt ∧ isWordC p0 = true := by
    cases π with
    | nil => simp at hπne
    | cons p0 pt => exact ⟨p0, pt, rfl, List.all_eq_true.mp hπcls p0 (by simp)⟩
  intro n
  induction n with
  | zero =>
    intro u hn
    have hu : u = [] := List.length_eq_zero.mp (Nat.le_zero.mp hn)
    subst hu
    simp [substPat_nil, hasPat]
  | succ n2 ih =>
    intro u hn
    cases u with
    | nil => simp [substPat_nil, hasPat]
    | cons c rest =>
      by_cases hm : begins π (c :: rest) = true
      · rw [substPat_cons_match hπne hm]
        have htlen : (dropRun (List.drop π.length (c :: rest))).length ≤ n2 := by
          have h1 := dropRun_length_le (List.drop π.length (c :: rest))
          have h2 := List.length_drop π.length (c :: rest)
          simp only [List.length_cons] at h2
          simp at hn
          omega
        have hwshape : substPat π rr (dropRun (List.drop π.length (c :: rest))) = [] ∨
            ∃ c0 t0, substPat π rr (dropRun (List.drop π.length (c :: rest))) = c0 :: t0 ∧
              isWordC c0 = false := by
          rcases dropRun_head (List.drop π.length (c :: rest)) with h0 | ⟨c0, t0, h0, hc0⟩
          · left
            rw [h0, substPat_nil]
          · right
            exact ⟨c0, substPat π rr t0,
              by rw [h0, substPat_head_nonword rr hπhead t0 hc0], hc0⟩
        exact hasPat_append_false π hπcls rr hlen _ hwshape (ih _ htlen)
      · have hm2 : begins π (c :: rest) = false := by simpa using hm
        rw [substPat_cons_nomatch rr hm2]
        simp only [hasPat, Bool.or_eq_false_iff]
        refine ⟨?_, ih rest (by simp at hn; omega)⟩
        cases hbb : begins π (c :: substPat π rr rest) with
        | false => rfl
        | true =>
          exfalso
          have h0 : begins (π.drop 0) (substPat π rr (c :: rest)) = true := by
            rw [substPat_cons_nomatch rr hm2]
            simpa using hbb
          have hres := begins_drop_pullback π rr π hπcls hπhead hlen hsuf (n2 + 1)
            (c :: rest) hn 0 (by omega) h0
          simp at hres
          rw [hres] at hm2
          exact absurd hm2 (by simp)

theorem hasPat_substPat_other (σ rr π : List Char)
    (hπcls : π.all isWordC = true)
    (hσ : ∃ s0 σt, σ = s0 :: σt ∧ isWordC s0 = true)
    (hlen : rr.length < π.length)
    (hsuf : ∀ k, k < π.length → 1 ≤ k → begins (π.drop k) rr = false) :
    ∀ n : Nat, ∀ u : List Char, u.length ≤ n → hasPat π u = false →
      hasPat π (substPat σ rr u) = false := by
  have hσlen : 1 ≤ σ.length := by
    obtain ⟨s0, σt, rfl, _⟩ := hσ
    simp
  intro n
  induction n with
  | zero =>
    intro u hn _
    have hu : u = [] := List.length_eq_zero.mp (Nat.le_zero.mp hn)
    subst hu
    simp [substPat_nil, hasPat]
  | succ n2 ih =>
    intro u hn hu
    cases u with
    | nil => simp [substPat_nil, hasPat]
    | cons c rest =>
      by_cases hm : begins σ (c :: rest) = true
      · rw [substPat_cons_match hσlen hm]
        have htlen : (dropRun (List.drop σ.length (c :: rest))).length ≤ n2 := by
          have h1 := dropRun_length_le (List.drop σ.length (c :: rest))
          have h2 := List.length_drop σ.length (c :: rest)
          simp only [List.length_cons] at h2
          simp at hn
          omega
        have hpt : hasPat π (dropRun (List.drop σ.length (c :: rest))) = false :=
          hasPat_dropRun π _ (hasPat_drop π σ.length (c :: rest) hu)
        have hwshape : substPat σ rr (dropRun (List.drop σ.length (c :: rest))) = [] ∨
            ∃ c0 t0, substPat σ rr (dropRun (List.drop σ.length (c :: rest))) = c0 :: t0 ∧
              isWordC c0 = false := by
          rcases dropRun_head (List.drop σ.length (c :: rest)) with h0 | ⟨c0, t0, h0, hc0⟩
          · left
            rw [h0, substPat_nil]
          · right
            exact ⟨c0, substPat σ rr t0,
              by rw [h0, substPat_head_nonword rr hσ t0 hc0], hc0⟩
        exact hasPat_append_false π hπcls rr hlen _ hwshape (ih _ htlen hpt)
      · have hm2 : begins σ (c :: rest) = false := by simpa using hm
        rw [substPat_cons_nomatch rr hm2]
        simp only [hasPat, Bool.or_eq_false_iff]
        refine ⟨?_, ih rest (by simp at hn; omega) (hasPat_tail hu)⟩
        cases hbb : begins π (c :: substPat σ rr rest) with
        | false => rfl
        | true =>
          exfalso
          have h0 : begins (π.drop 0) (substPat σ rr (c :: rest)) = true := by
            rw [substPat_cons_nomatch rr hm2]
            simpa using hbb
          have hres := begins_drop_pullback σ rr π hπcls hσ hlen hsuf (n2 + 1)
            (c :: rest) hn 0 (by omega) h0
          simp only [List.drop_zero] at hres
          simp only [hasPat, Bool.or_eq_false_iff] at hu
          rw [hres] at hu
          exact absurd hu.1 (by simp)

theorem substPat_id_of_no (π rr : List Char) :
    ∀ u : List Char, hasPat π u = false → substPat π rr u = u := by
  intro u
  induction u with
  | nil => intro _; rfl
  | cons c rest ih =>
    intro h
    have h1 : begins π (c :: rest) = false := by
      simp only [hasPat, Bool.or_eq_false_iff] at h
      exact h.1
    rw [substPat_cons_nomatch rr h1, ih (hasPat_tail h)]

theorem normalize_idem (s : String) :
    normalize_xml_content (normalize_xml_content s) = normalize_xml_content s := by
  have hcls1 : patI440.all isWordC = true := by decide
  have hcls2 : patQ35.all isWordC = true := by decide
  have hne1 : 1 ≤ patI440.length := by decide
  have hne2 : 1 ≤ patQ35.length := by decide
  have hlen1 : repPc.length < patI440.length := by decide
  have hlen2 : repQ35.length < patQ35.length := by decide
  have hlenX : repQ35.length < patI440.length := by decide
  have hsuf1 : ∀ k, k < patI440.length → 1 ≤ k → begins (patI440.drop k) repPc = false := by
    decide
  have hsuf2 : ∀ k, k < patQ35.length → 1 ≤ k → begins (patQ35.drop k) repQ35 = false := by
    decide
  have hsufX : ∀ k, k < patI440.length → 1 ≤ k → begins (patI440.drop k) repQ35 = false := by
    decide
  have hσ2 : ∃ s0 σt, patQ35 = s0 :: σt ∧ isWordC s0 = true :=
    ⟨'p', "c-q35-".data, by decide, by decide⟩
  have F0 : hasPat patI440 (substPat patI440 repPc s.data) = false :=
    hasPat_substPat_self patI440 repPc hcls1 hne1 hlen1 hsuf1 _ _ (Nat.le_refl _)
  have F1 : hasPat patI440 (substPat patQ35 repQ35 (substPat patI440 repPc s.data)) = false :=
    hasPat_substPat_other patQ35 repQ35 patI440 hcls1 hσ2 hlenX hsufX _ _ (Nat.le_refl _) F0
  have F2 : hasPat patQ35 (substPat patQ35 repQ35 (substPat patI440 repPc s.data)) = false :=
    hasPat_substPat_self patQ35 repQ35 hcls2 hne2 hlen2 hsuf2 _ _ (Nat.le_refl _)
  show String.mk (substPat patQ35 repQ35 (substPat patI440 repPc
      (String.mk (substPat patQ35 repQ35 (substPat patI440 repPc s.data))).data)) = _
  rw [show (String.mk (substPat patQ35 repQ35 (substPat patI440 repPc s.data))).data =
    substPat patQ35 repQ35 (substPat patI440 repPc s.data) from rfl]
  rw [substPat_id_of_no patI440 repPc _ F1, substPat_id_of_no patQ35 repQ35 _ F2]
  rfl

/- ------------------------------------------------------------------ -/
/- Section 8: helper lemmas for the remaining claims.                  -/
/- ------------------------------------------------------------------ -/

theorem dedupFirstGo_mem (p : String) :
    ∀ (l seen : List String), p ∈ l → p ∉ seen → p ∈ dedupFirstGo seen l := by
  intro l
  induction l with
  | nil => intro seen h _; simp at h
  | cons x xs ih =>
    intro seen hl hs
    by_cases hx : x ∈ seen
    · simp only [dedupFirstGo, if_pos hx]
      rcases List.mem_cons.mp hl with rfl | h2
      · exact absurd hx hs
      · exact ih seen h2 hs
    · simp only [dedupFirstGo, if_neg hx]
      rcases List.mem_cons.mp hl with rfl | h2
      · exact List.mem_cons_self _ _
      · by_cases hpx : p = x
        · subst hpx
          exact List.mem_cons_self _ _
        · refine List.mem_cons_of_mem _ (ih (x :: seen) h2 ?_)
          simp [hpx, hs]

theorem dedupFirst_mem (p : String) (l : List String) (h : p ∈ l) : p ∈ dedupFirst l :=
  dedupFirstGo_mem p l [] h (by simp)

theorem lookup_map_mtime (f : String → Option Int) :
    ∀ (l : List String) (p : String), p ∈ l →
      (l.map (fun q => (q, (f q).getD 0))).lookup p = some ((f p).getD 0) := by
  intro l
  induction l with
  | nil => intro p h; simp at h
  | cons q rest ih =>
    intro p h
    by_cases hpq : p = q
    · subst hpq
      simp [List.lookup]
    · have h2 : p ∈ rest := by
        rcases List.mem_cons.mp h with rfl | h2
        · exact absurd rfl hpq
        · exact h2
      have hbeq : (p == q) = false := by
        simp [hpq]
      simp only [List.map_cons, List.lookup, hbeq]
      exact ih p h2

theorem validate_valid_eq {resolves : String → Bool} {local_hostname hostname x : String}
    (h : validate_remote_host resolves local_hostname hostname = .valid x) : x = hostname := by
  unfold validate_remote_host at h
  split_ifs at h
  all_goals simp_all

theorem vm_file_infos_vm_name (cfg : HostConfig) (env : CollectEnv) (src_dir_index : Nat)
    (snapshot_mount kvm_fs_mnt : Option String) (vm : String) :
    ∀ fi ∈ vm_file_infos cfg env src_dir_index snapshot_mount kvm_fs_mnt vm,
      fi.vm_name = vm := by
  intro fi hfi
  simp only [vm_file_infos, List.mem_append, List.mem_filterMap] at hfi
  rcases hfi with ⟨src, hmem, hsrc⟩ | ⟨src, hmem, hsrc⟩
  · split_ifs at hsrc with hex
    simp only [Option.some_inj] at hsrc
    rw [← hsrc]
  · split_ifs at hsrc with hex
    simp only [Option.some_inj] at hsrc
    rw [← hsrc]

theorem vm_file_infos_remote_path (cfg : HostConfig) (env : CollectEnv) (src_dir_index : Nat)
    (snapshot_mount kvm_fs_mnt : Option String) (vm : String) :
    ∀ fi ∈ vm_file_infos cfg env src_dir_index snapshot_mount kvm_fs_mnt vm,
      (fi.file_type = "disk" ∧ fi.dst_dir = cfg.kvm_images_dst_dirs.getD src_dir_index "" ∧
        ∃ src ∈ env.vm_disks vm, fi.remote_path = fi.dst_dir ++ "/" ++ basename src) ∨
      (fi.file_type = "nvram" ∧ fi.dst_dir = cfg.kvm_nvram_dst_dirs.getD src_dir_index "" ∧
        ∃ src ∈ env.vm_nvrams vm, fi.remote_path = fi.dst_dir ++ "/" ++ basename src) := by
  intro fi hfi
  simp only [vm_file_infos, List.mem_append, List.mem_filterMap] at hfi
  rcases hfi with ⟨src, hmem, hsrc⟩ | ⟨src, hmem, hsrc⟩
  · left
    split_ifs at hsrc with hex
    simp only [Option.some_inj] at hsrc
    rw [← hsrc]
    exact ⟨rfl, rfl, src, hmem, rfl⟩
  · right
    split_ifs at hsrc with hex
    simp only [Option.some_inj] at hsrc
    rw [← hsrc]
    exact ⟨rfl, rfl, src, hmem, rfl⟩

theorem check_one_dir_cases (r : Option String) :
    check_one_dir r = .ok ∨ check_one_dir r = .exited 127 ∨ check_one_dir r = .crashed := by
  cases r with
  | none => simp [check_one_dir]
  | some out =>
    simp only [check_one_dir]
    by_cases h1 : (splitLines (pyStripL out.data)).length > 1
    · rw [if_pos h1]
      cases hg : (pyFields ((splitLines (pyStripL out.data)).getD 1 [])).getLast? with
      | none => simp
      | some mp =>
        by_cases h3 : mp = [] ∨ mp = "/".data
        · simp [h3]
        · simp [h3]
    · rw [if_neg h1]
      simp

theorem check_mount_dirs_cons (df : String → Option String) (d : String) (rest : List String) :
    check_mount_dirs false (d :: rest) df =
      match check_one_dir (df d) with
      | .ok => check_mount_dirs false rest df
      | o => o := by
  simp [check_mount_dirs]

theorem check_mount_dirs_ok_iff (df : String → Option String) :
    ∀ dirs : List String,
      (check_mount_dirs false dirs df = .ok ↔ ∀ d ∈ dirs, check_one_dir (df d) = .ok) := by
  intro dirs
  induction dirs with
  | nil => simp [check_mount_dirs]
  | cons d rest ih =>
    rw [check_mount_dirs_cons]
    rcases check_one_dir_cases (df d) with hc | hc | hc
    · rw [hc]
      show check_mount_dirs false rest df = CheckOutcome.ok ↔ _
      constructor
      · intro h d2 hd2
        rcases List.mem_cons.mp hd2 with rfl | h2
        · exact hc
        · exact ih.mp h d2 h2
      · intro h
        exact ih.mpr (fun d2 hd2 => h d2 (List.mem_cons_of_mem _ hd2))
    · rw [hc]
      show CheckOutcome.exited 127 = CheckOutcome.ok ↔ _
      constructor
      · intro h
        exact absurd h (by simp)
      · intro h
        have hd := h d (List.mem_cons_self _ _)
        rw [hc] at hd
        exact absurd hd (by simp)
    · rw [hc]
      show CheckOutcome.crashed = CheckOutcome.ok ↔ _
      constructor
      · intro h
        exact absurd h (by simp)
      · intro h
        have hd := h d (List.mem_cons_self _ _)
        rw [hc] at hd
        exact absurd hd (by simp)

theorem check_mount_dirs_exit_iff (df : String → Option String) :
    ∀ dirs : List String, (∀ d ∈ dirs, check_one_dir (df d) ≠ .crashed) →
      (check_mount_dirs false dirs df = .exited 127 ↔
        ∃ d ∈ dirs, check_one_dir (df d) = .exited 127) := by
  intro dirs
  induction dirs with
  | nil => simp [check_mount_dirs]
  | cons d rest ih =>
    intro hnc
    have hncr : ∀ d2 ∈ rest, check_one_dir (df d2) ≠ .crashed :=
      fun d2 hd2 => hnc d2 (List.mem_cons_of_mem _ hd2)
    rw [check_mount_dirs_cons]
    rcases check_one_dir_cases (df d) with hc | hc | hc
    · rw [hc]
      show check_mount_dirs false rest df = CheckOutcome.exited 127 ↔ _
      constructor
      · intro h
        obtain ⟨d2, hd2, he⟩ := (ih hncr).mp h
        exact ⟨d2, List.mem_cons_of_mem _ hd2, he⟩
      · rintro ⟨d2, hd2, he⟩
        rcases List.mem_cons.mp hd2 with rfl | h2
        · rw [hc] at he
          exact absurd he (by simp)
        · exact (ih hncr).mpr ⟨d2, h2, he⟩
    · rw [hc]
      show CheckOutcome.exited 127 = CheckOutcome.exited 127 ↔ _
      simp only [true_iff]
      exact ⟨d, List.mem_cons_self _ _, hc⟩
    · exact absurd hc (hnc d (List.mem_cons_self _ _))

/- ------------------------------------------------------------------ -/
/- Section 9: the claims.                                              -/
/- ------------------------------------------------------------------ -/

/-- C1: with force mode off and stat checks enabled and available, a
    file candidate is included in the sync set iff its local mtime is
    strictly greater than its remote mtime; equal times are classified
    as the logged skip; and a remote-missing file (stat result `none`,
    which both lookup paths turn into mtime 0) is classified for sync
    whenever the local file has a positive mtime. -/
theorem claim_C1_staleness_classification
    (use_batch_stat : Bool) (local_mtime : Int) (batch_lookup indiv_stat : Option Int) :
    (phase3_action false false true use_batch_stat local_mtime batch_lookup indiv_stat =
        .sync ↔
      local_mtime > (if use_batch_stat then batch_lookup else indiv_stat).getD 0) ∧
    (local_mtime = (if use_batch_stat then batch_lookup else indiv_stat).getD 0 →
      phase3_action false false true use_batch_stat local_mtime batch_lookup indiv_stat =
        .skipIdentical) ∧
    ((if use_batch_stat then batch_lookup else indiv_stat) = none →
      0 < local_mtime →
      phase3_action false false true use_batch_stat local_mtime batch_lookup indiv_stat =
        .sync) := by
  have main : ∀ rm : Option Int,
      (classify_mtimes local_mtime (rm.getD 0) = .sync ↔ local_mtime > rm.getD 0) ∧
      (local_mtime = rm.getD 0 → classify_mtimes local_mtime (rm.getD 0) = .skipIdentical) ∧
      (rm = none → 0 < local_mtime → classify_mtimes local_mtime (rm.getD 0) = .sync) := by
    intro rm
    refine ⟨?_, ?_, ?_⟩
    · unfold classify_mtimes
      split_ifs with h1 h2
      · simp [h1]
      · constructor
        · intro hcon
          exact absurd hcon (by simp)
        · intro hcon
          exact absurd hcon h1
      · constructor
        · intro hcon
          exact absurd hcon (by simp)
        · intro hcon
          exact absurd hcon h1
    · intro h
      unfold classify_mtimes
      rw [if_neg (by omega), if_pos h]
    · intro h hpos
      rw [h]
      unfold classify_mtimes
      rw [if_pos (by simpa using hpos)]
  cases use_batch_stat with
  | false => simpa [phase3_action] using main indiv_stat
  | true => simpa [phase3_action] using main batch_lookup

/-- Closed witness for C1: a remote-missing file with local mtime 5 is
    synced; equal mtimes (7 = 7) give the logged identical skip. -/
theorem claim_C1_staleness_classification_witness :
    phase3_action false false true true 5 none none = FileAction.sync ∧
    phase3_action false false true false 7 none (some 7) = FileAction.skipIdentical :=
  ⟨(claim_C1_staleness_classification true 5 none none).2.2 rfl (by decide),
   (claim_C1_staleness_classification false 7 none (some 7)).2.1 (by decide)⟩

/-- C2: for a candidate whose remote path was part of the batched query,
    the batched classification (dictionary lookup with default 0) and
    the per-file fallback classification (per-file stat with 0 on
    failure) agree for every local mtime, and a remote-missing file
    yields mtime 0 in both paths. -/
theorem claim_C2_batch_fallback_agree (remote_mtime_of : String → Option Int)
    (file_paths : List String) (p : String) (local_mtime : Int) (b i : Option Int)
    (hp : p ∈ file_paths) :
    (phase3_action false false true true local_mtime
        ((get_batch_remote_mtimes remote_mtime_of file_paths).lookup p) i =
      phase3_action false false true false local_mtime b (remote_mtime_of p)) ∧
    (remote_mtime_of p = none →
      ((get_batch_remote_mtimes remote_mtime_of file_paths).lookup p).getD 0 = 0 ∧
      get_file_mtime_remote remote_mtime_of p = 0) := by
  have hmem : p ∈ dedupFirst file_paths := dedupFirst_mem p file_paths hp
  have hl : (get_batch_remote_mtimes remote_mtime_of file_paths).lookup p =
      some ((remote_mtime_of p).getD 0) :=
    lookup_map_mtime remote_mtime_of (dedupFirst file_paths) p hmem
  constructor
  · rw [hl]
    simp [phase3_action]
  · intro hnone
    rw [hl, hnone]
    simp [get_file_mtime_remote, hnone]

/-- Closed witness for C2 at a remote filesystem with no files: the
    batched and per-file classifications agree on the queried path. -/
theorem claim_C2_batch_fallback_agree_witness :
    phase3_action false false true true 3
        ((get_batch_remote_mtimes (fun _ => none) ["/shared/kvm0/images/a.qcow2"]).lookup
          "/shared/kvm0/images/a.qcow2") (some 9) =
      phase3_action false false true false 3 (some 9) ((fun _ => none) "/shared/kvm0/images/a.qcow2") :=
  (claim_C2_batch_fallback_agree (fun _ => none) ["/shared/kvm0/images/a.qcow2"]
    "/shared/kvm0/images/a.qcow2" 3 (some 9) (some 9) (by simp)).1

/-- C3: with force mode off, a VM that is a member of either cached
    running-VM set contributes nothing to `collect_files_for_sync`:
    it is absent from the returned VM list and none of the returned
    file candidates carries its name. -/
theorem claim_C3_running_vm_excluded (env : CollectEnv) (cfg : HostConfig)
    (vm_list : List String) (src_dir_index : Nat) (snapshot_mount kvm_fs_mnt : Option String)
    (vm : String)
    (hrun : env.running_vms_local.contains vm = true ∨
      env.running_vms_remote.contains vm = true) :
    vm ∉ (collect_files_for_sync false env cfg vm_list src_dir_index
        snapshot_mount kvm_fs_mnt).1 ∧
    ∀ fi ∈ (collect_files_for_sync false env cfg vm_list src_dir_index
        snapshot_mount kvm_fs_mnt).2, fi.vm_name ≠ vm := by
  have hskip : should_skip_vm false env vm = true := by
    unfold should_skip_vm
    rcases hrun with h | h
    · simp at h
      simp [h]
    · simp at h
      cases hl : env.running_vms_local.contains vm <;> simp [h, hl]
  induction vm_list with
  | nil => exact ⟨by simp [collect_files_for_sync], by simp [collect_files_for_sync]⟩
  | cons v rest ih =>
    simp only [collect_files_for_sync]
    by_cases hsv : should_skip_vm false env v = true
    · simpa [hsv] using ih
    · have hvvm : v ≠ vm := by
        intro he
        rw [he, hskip] at hsv
        exact hsv rfl
      rw [if_neg (by simpa using hsv)]
      by_cases hx : env.xml_exists v = false
      · simpa [hx] using ih
      · rw [if_neg hx]
        refine ⟨?_, ?_⟩
        · by_cases hemp :
            (vm_file_infos cfg env src_dir_index snapshot_mount kvm_fs_mnt v).isEmpty
          · simpa [hemp] using ih.1
          · simp only [hemp, if_neg (by simpa using hemp)]
            intro hmem
            rcases List.mem_cons.mp hmem with he | h2
            · exact hvvm he.symm
            · exact ih.1 h2
        · intro fi hfi
          rcases List.mem_append.mp hfi with h1 | h2
          · rw [vm_file_infos_vm_name cfg env src_dir_index snapshot_mount kvm_fs_mnt v fi h1]
            exact hvvm
          · exact ih.2 fi h2

/-- Closed witness for C3: a VM running on the remote side is excluded
    even though its XML and files all exist. -/
theorem claim_C3_running_vm_excluded_witness :
    "alpha" ∉ (collect_files_for_sync false
      { running_vms_local := [], running_vms_remote := ["alpha"],
        xml_exists := fun _ => true,
        vm_disks := fun _ => ["/shared/kvm0/images/alpha.qcow2"],
        vm_nvrams := fun _ => [], file_exists := fun _ => true }
      { default_vm_list := default_vm_list_str } ["alpha"] 0 none none).1 :=
  (claim_C3_running_vm_excluded
    { running_vms_local := [], running_vms_remote := ["alpha"],
      xml_exists := fun _ => true,
      vm_disks := fun _ => ["/shared/kvm0/images/alpha.qcow2"],
      vm_nvrams := fun _ => [], file_exists := fun _ => true }
    { default_vm_list := default_vm_list_str } ["alpha"] 0 none none "alpha"
    (Or.inr (by decide))).1

/-- C4: every file candidate built by `collect_files_for_sync` carries a
    remote path equal to its destination directory (the configured
    disk-image or NVRAM destination for this source-directory index)
    joined with the basename of the file reference taken from the VM
    configuration, independent of any snapshot redirection applied to
    the local path. -/
theorem claim_C4_remote_path_invariant (force_action : Bool) (env : CollectEnv)
    (cfg : HostConfig) (vm_list : List String) (src_dir_index : Nat)
    (snapshot_mount kvm_fs_mnt : Option String) :
    ∀ fi ∈ (collect_files_for_sync force_action env cfg vm_list src_dir_index
        snapshot_mount kvm_fs_mnt).2,
      (fi.file_type = "disk" ∧ fi.dst_dir = cfg.kvm_images_dst_dirs.getD src_dir_index "" ∧
        ∃ src ∈ env.vm_disks fi.vm_name,
          fi.remote_path = fi.dst_dir ++ "/" ++ basename src) ∨
      (fi.file_type = "nvram" ∧ fi.dst_dir = cfg.kvm_nvram_dst_dirs.getD src_dir_index "" ∧
        ∃ src ∈ env.vm_nvrams fi.vm_name,
          fi.remote_path = fi.dst_dir ++ "/" ++ basename src) := by
  induction vm_list with
  | nil => simp [collect_files_for_sync]
  | cons v rest ih =>
    simp only [collect_files_for_sync]
    by_cases hsv : should_skip_vm force_action env v = true
    · simpa [hsv] using ih
    · rw [if_neg (by simpa using hsv)]
      by_cases hx : env.xml_exists v = false
      · simpa [hx] using ih
      · rw [if_neg hx]
        intro fi hfi
        rcases List.mem_append.mp hfi with h1 | h2
        · have hname := vm_file_infos_vm_name cfg env src_dir_index snapshot_mount kvm_fs_mnt v fi h1
          have hrp := vm_file_infos_remote_path cfg env src_dir_index snapshot_mount kvm_fs_mnt v fi h1
          rw [← hname] at hrp
          exact hrp
        · exact ih fi h2

/-- Closed witness for C4: the candidate whose local path was
    redirected into the snapshot mount still carries a remote path in
    the real destination directory. -/
theorem claim_C4_remote_path_invariant_witness :
    (({ vm_name := "beta",
        local_path := "/run/user/0/kvm0_lv_snapshot/images/beta.qcow2",
        remote_path := "/shared/kvm0/images/beta.qcow2",
        file_type := "disk", dst_dir := "/shared/kvm0/images" } : FileInfo).file_type = "disk" ∧
      ({ vm_name := "beta",
         local_path := "/run/user/0/kvm0_lv_snapshot/images/beta.qcow2",
         remote_path := "/shared/kvm0/images/beta.qcow2",
         file_type := "disk", dst_dir := "/shared/kvm0/images" } : FileInfo).dst_dir =
        ({ default_vm_list := default_vm_list_str :
          HostConfig }).kvm_images_dst_dirs.getD 0 "" ∧
      ∃ src ∈ ["/shared/kvm0/images/beta.qcow2"],
        ({ vm_name := "beta",
           local_path := "/run/user/0/kvm0_lv_snapshot/images/beta.qcow2",
           remote_path := "/shared/kvm0/images/beta.qcow2",
           file_type := "disk", dst_dir := "/shared/kvm0/images" } : FileInfo).remote_path =
          ({ vm_name := "beta",
             local_path := "/run/user/0/kvm0_lv_snapshot/images/beta.qcow2",
             remote_path := "/shared/kvm0/images/beta.qcow2",
             file_type := "disk", dst_dir := "/shared/kvm0/images" } : FileInfo).dst_dir ++
            "/" ++ basename src) ∨
    (({ vm_name := "beta",
        local_path := "/run/user/0/kvm0_lv_snapshot/images/beta.qcow2",
        remote_path := "/shared/kvm0/images/beta.qcow2",
        file_type := "disk", dst_dir := "/shared/kvm0/images" } : FileInfo).file_type = "nvram" ∧
      ({ vm_name := "beta",
         local_path := "/run/user/0/kvm0_lv_snapshot/images/beta.qcow2",
         remote_path := "/shared/kvm0/images/beta.qcow2",
         file_type := "disk", dst_dir := "/shared/kvm0/images" } : FileInfo).dst_dir =
        ({ default_vm_list := default_vm_list_str :
          HostConfig }).kvm_nvram_dst_dirs.getD 0 "" ∧
      ∃ src ∈ ([] : List String),
        ({ vm_name := "beta",
           local_path := "/run/user/0/kvm0_lv_snapshot/images/beta.qcow2",
           remote_path := "/shared/kvm0/images/beta.qcow2",
           file_type := "disk", dst_dir := "/shared/kvm0/images" } : FileInfo).remote_path =
          ({ vm_name := "beta",
             local_path := "/run/user/0/kvm0_lv_snapshot/images/beta.qcow2",
             remote_path := "/shared/kvm0/images/beta.qcow2",
             file_type := "disk", dst_dir := "/shared/kvm0/images" } : FileInfo).dst_dir ++
            "/" ++ basename src) :=
  claim_C4_remote_path_invariant false
    { running_vms_local := [], running_vms_remote := [],
      xml_exists := fun _ => true,
      vm_disks := fun _ => ["/shared/kvm0/images/beta.qcow2"],
      vm_nvrams := fun _ => [], file_exists := fun _ => true }
    { default_vm_list := default_vm_list_str } ["beta"] 0
    (some "/run/user/0/kvm0_lv_snapshot") (some "/shared/kvm0")
    { vm_name := "beta",
      local_path := "/run/user/0/kvm0_lv_snapshot/images/beta.qcow2",
      remote_path := "/shared/kvm0/images/beta.qcow2",
      file_type := "disk", dst_dir := "/shared/kvm0/images" }
    (by decide)

/-- C5: an unresolvable hostname, and likewise a hostname equal to the
    local machine's own hostname, makes `validate_remote_host` exit with
    code 127 (the function performs no remote work: it either exits or
    returns), and a validated hostname is always resolvable, non-local
    and nonempty, so validation never returns such a hostname. -/
theorem claim_C5_host_validation (resolves : String → Bool) (local_hostname hostname : String) :
    (resolves hostname = false →
      validate_remote_host resolves local_hostname hostname = .exited 127) ∧
    (hostname = local_hostname →
      validate_remote_host resolves local_hostname hostname = .exited 127) ∧
    (∀ x, validate_remote_host resolves local_hostname hostname = .valid x →
      x = hostname ∧ resolves hostname = true ∧ hostname ≠ local_hostname ∧ hostname ≠ "") := by
  refine ⟨?_, ?_, ?_⟩
  · intro h
    unfold validate_remote_host
    split_ifs with h1
    all_goals simp_all
  · intro h
    unfold validate_remote_host
    split_ifs with h1
    all_goals simp_all
  · intro x hx
    unfold validate_remote_host at hx
    split_ifs at hx with h1 h2 h3
    all_goals simp_all

/-- C6 counterexample: the remote mount-point check never queries the
    firmware/NVRAM destination directories.  In this environment the
    (default) configuration's NVRAM destination `/shared/kvm0/nvram`
    resolves to the root filesystem, which per-directory checking would
    reject with exit 127, yet `check_remote_mount_points` returns
    normally because the loop iterates `kvm_images_dst_dirs` only. -/
theorem claim_C6_counterexample :
    check_one_dir (some "Filesystem Size Used Avail Use% Mounted on\n/dev/root 50G 20G 30G 40% /") =
      CheckOutcome.exited 127 ∧
    ({ default_vm_list := default_vm_list_str : HostConfig }.kvm_nvram_dst_dirs =
      ["/shared/kvm0/nvram"]) ∧
    check_remote_mount_points { default_vm_list := default_vm_list_str }
      (fun d =>
        if d = "/shared/kvm0/images" then
          some "Filesystem Size Used Avail Use% Mounted on\n/dev/sdb1 500G 100G 400G 20% /shared/kvm0"
        else
          some "Filesystem Size Used Avail Use% Mounted on\n/dev/root 50G 20G 30G 40% /") =
      CheckOutcome.ok := by
  refine ⟨by decide, by decide, by decide⟩

/-- C6 as amended: with `skip_mount_check` off and no df output
    malformed enough to raise `IndexError`, the check aborts with exit
    code 127 exactly when some configured disk-image destination
    directory fails its df round trip or resolves to an empty or root
    mount point, and returns normally exactly when every disk-image
    destination directory checks out; the firmware/NVRAM destination
    directories are not checked. -/
theorem claim_C6_amended (cfg : HostConfig) (df : String → Option String)
    (hskip : cfg.skip_mount_check = false)
    (hnc : ∀ d ∈ cfg.kvm_images_dst_dirs, check_one_dir (df d) ≠ .crashed) :
    (check_remote_mount_points cfg df = .exited 127 ↔
      ∃ d ∈ cfg.kvm_images_dst_dirs, check_one_dir (df d) = .exited 127) ∧
    (check_remote_mount_points cfg df = .ok ↔
      ∀ d ∈ cfg.kvm_images_dst_dirs, check_one_dir (df d) = .ok) := by
  unfold check_remote_mount_points
  rw [hskip]
  exact ⟨check_mount_dirs_exit_iff df cfg.kvm_images_dst_dirs hnc,
    check_mount_dirs_ok_iff df cfg.kvm_images_dst_dirs⟩

/-- Closed witness for the amended C6: a disk-image destination whose
    df output resolves to the root filesystem makes the check exit 127. -/
theorem claim_C6_amended_witness :
    check_remote_mount_points { default_vm_list := default_vm_list_str }
      (fun _ => some "Filesystem Size Used Avail Use% Mounted on\n/dev/root 50G 20G 30G 40% /") =
      CheckOutcome.exited 127 :=
  (claim_C6_amended { default_vm_list := default_vm_list_str }
    (fun _ => some "Filesystem Size Used Avail Use% Mounted on\n/dev/root 50G 20G 30G 40% /")
    (by decide) (by decide)).1.mpr ⟨"/shared/kvm0/images", by decide, by decide⟩

/-- C8: when the snapshot mount is present but the unmount attempt
    fails, `destroy_vxfs_snapshot` performs no teardown of the volume
    object, logs the busy warning and returns without raising; in
    general the teardown (`vxsnap dis`) is attempted exactly when the
    mount was present and the unmount succeeded, the method never lets
    an exception escape, and the cleanup phase of the main loop invokes
    it exactly when a snapshot handle is active, whatever the body of
    the iteration did. -/
theorem claim_C8_snapshot_teardown (env : DestroySnapEnv)
    (hm : snapshot_mounted_vxfs env.findmnt_rc_ok env.findmnt_stdout = true)
    (hu : env.umount_rc_ok = false) :
    (destroy_vxfs_snapshot false env).actions = [SnapAction.umountCmd] ∧
    (destroy_vxfs_snapshot false env).warned_umount_failed = true ∧
    (destroy_vxfs_snapshot false env).raised = false ∧
    (∀ env2 : DestroySnapEnv,
      (destroy_vxfs_snapshot false env2).raised = false ∧
      (SnapAction.vxsnapDis ∈ (destroy_vxfs_snapshot false env2).actions ↔
        snapshot_mounted_vxfs env2.findmnt_rc_ok env2.findmnt_stdout = true ∧
          env2.umount_rc_ok = true)) ∧
    (∀ (body : BodyOutcome) (active : Option (String × String × String × String))
        (env3 : DestroySnapEnv),
      (iteration_with_cleanup body active false env3).2 =
        match active with
        | none => []
        | some _ => (destroy_vxfs_snapshot false env3).actions) := by
  refine ⟨?_, ?_, ?_, ?_, ?_⟩
  · simp [destroy_vxfs_snapshot, hm, hu]
  · simp [destroy_vxfs_snapshot, hm, hu]
  · simp [destroy_vxfs_snapshot, hm, hu]
  · intro env2
    unfold destroy_vxfs_snapshot
    constructor
    · split_ifs <;> simp
    · by_cases h2m : snapshot_mounted_vxfs env2.findmnt_rc_ok env2.findmnt_stdout = true
      · by_cases h2u : env2.umount_rc_ok = true
        · simp [h2m, h2u]
        · simp only [if_neg (by simp : ¬(false = true)), if_pos h2m, if_neg h2u]
          constructor
          · intro hmem
            simp at hmem
          · intro hc
            exact absurd hc.2 h2u
      · simp only [if_neg (by simp : ¬(false = true)), if_neg h2m]
        constructor
        · intro hmem
          simp at hmem
        · intro hc
          exact absurd hc.1 h2m
  · intro body active env3
    rfl

/-- Closed witness for C8: a mounted snapshot whose unmount fails is
    left alone apart from the unmount attempt and the warning. -/
theorem claim_C8_snapshot_teardown_witness :
    (destroy_vxfs_snapshot false
      { findmnt_rc_ok := true, findmnt_stdout := "FSTYPE\nvxfs",
        umount_rc_ok := false, dis_ok := true, rm_ok := true }).actions =
      [SnapAction.umountCmd] :=
  (claim_C8_snapshot_teardown
    { findmnt_rc_ok := true, findmnt_stdout := "FSTYPE\nvxfs",
      umount_rc_ok := false, dis_ok := true, rm_ok := true }
    (by decide) rfl).1

/-- C9: a detected hostname absent from the static table resolves to
    the generic default `HostConfig` carrying the space-joined default
    VM list, and the effective remote host is the detected hostname
    itself; `setup_host_config` is a total function, so resolution never
    raises. -/
theorem claim_C9_default_config (detected : String)
    (h : lookupHostConfig detected = none) :
    setup_host_config detected =
      ({ default_vm_list := default_vm_list_str }, detected) ∧
    (setup_host_config detected).1.default_vm_list = default_vm_list_str ∧
    (setup_host_config detected).2 = detected := by
  have hmain : setup_host_config detected =
      ({ default_vm_list := default_vm_list_str }, detected) := by
    unfold setup_host_config
    rw [h]
    rfl
  exact ⟨hmain, by rw [hmain], by rw [hmain]⟩

/-- Closed witness for C9 at a hostname outside the table. -/
theorem claim_C9_default_config_witness :
    setup_host_config "tarsis" =
      ({ default_vm_list := default_vm_list_str }, "tarsis") :=
  (claim_C9_default_config "tarsis" (by decide)).1

/-- C10: the host-determination phase validates only the lookup name
    (CLI override or script-derived name); whenever it succeeds, the
    configuration and effective remote host are produced from that
    lookup name without any further validation.  In particular, with a
    resolver that knows only `daltigoth`, a run targeting `daltigoth`
    proceeds with effective remote host `daltigoth-228` even though
    `daltigoth-228` itself would fail validation (exit 127). -/
theorem claim_C10_effective_host_not_validated :
    (∀ (resolves : String → Bool) (local_hostname : String) (cli_host : Option String)
        (script_name : String) (cfg : HostConfig) (eff : String),
      main_host_phase resolves local_hostname cli_host script_name = .ok (cfg, eff) →
      validate_remote_host resolves local_hostname (lookup_name cli_host script_name) =
          .valid (lookup_name cli_host script_name) ∧
        (cfg, eff) = setup_host_config (lookup_name cli_host script_name)) ∧
    (effective_of (main_host_phase (fun s => s == "daltigoth") "myhost"
        (some "daltigoth") "rsync_KVM_daltigoth_OS.py") = some "daltigoth-228" ∧
      (fun s => s == "daltigoth") "daltigoth-228" = false ∧
      validate_remote_host (fun s => s == "daltigoth") "myhost" "daltigoth-228" =
        .exited 127) := by
  constructor
  · intro resolves local_hostname cli_host script_name cfg eff hok
    unfold main_host_phase at hok
    cases hv : validate_remote_host resolves local_hostname (lookup_name cli_host script_name) with
    | exited n =>
      rw [hv] at hok
      exact absurd hok (by simp)
    | valid h2 =>
      rw [hv] at hok
      simp only [Except.ok.injEq] at hok
      have he : h2 = lookup_name cli_host script_name := validate_valid_eq hv
      subst he
      exact ⟨rfl, hok.symm⟩
  · refine ⟨by decide, by decide, by decide⟩

set_option maxRecDepth 100000

/-- C7: machine-type normalization is idempotent on every document
    (normalizing an already-normalized document returns it unchanged);
    the RHEL and Fedora test documents, which differ only in their
    `pc-q35-*` machine-type strings, normalize to byte-identical text;
    and the document pair with a genuine memory-size change remains
    different after normalization. -/
theorem claim_C7_normalization :
    (∀ s : String, normalize_xml_content (normalize_xml_content s) = normalize_xml_content s) ∧
    normalize_xml_content rhel_xml = normalize_xml_content fedora_xml ∧
    normalize_xml_content original_xml ≠ normalize_xml_content changed_xml := by
  refine ⟨normalize_idem, by decide, by decide⟩

end KrynnTools
